import Mathlib

/-!
Verification development for the Spoken YouTube-transcription backend
(`codebase/server/server.js`) and its Chrome-extension cache
(`codebase/extension/sidepanel.js`, `codebase/extension/utils.js`).

JavaScript numbers are modelled as rationals (`ℚ`); all values occurring in
the verified claims are exactly representable, and every comparison and
`Math.floor`/`Math.ceil` performed by the code on them agrees between IEEE
doubles and exact rationals at those inputs.  Optional / `undefined` string
values are modelled as `Option String`, with JavaScript truthiness made
explicit (`none` and `some ""` are both falsy).
-/

namespace Spoken

/-! ## Deepgram backend (`transcribeDeepgram`, server.js lines 334–469) -/

/-- Languages supported by Deepgram's Nova-2 model, transcribed from the
`DEEPGRAM_NOVA2_LANGUAGES` set literal in server.js. -/
def DEEPGRAM_NOVA2_LANGUAGES : List String :=
  ["en", "en-US", "en-GB", "en-AU", "en-NZ", "en-IN",
   "es", "es-419", "es-ES",
   "fr", "fr-CA",
   "de", "it",
   "pt", "pt-BR", "pt-PT",
   "nl", "hi", "ja",
   "zh", "zh-CN", "zh-TW",
   "ko", "pl", "ru", "tr", "uk", "sv", "da", "no", "fi", "id", "ms",
   "th", "vi", "ta", "te", "cs", "el", "ro", "bg", "hu", "sk", "hr",
   "ca", "taq"]

/-- JavaScript truthiness for an optional string: `undefined`/`null` and the
empty string are falsy. -/
def strTruthy : Option String → Bool
  | none => false
  | some s => s ≠ ""

/-- `useWhisper` flag of `transcribeDeepgram`:
`language && language !== 'auto' && !DEEPGRAM_NOVA2_LANGUAGES.has(language)`. -/
def deepgramUseWhisper (language : Option String) : Bool :=
  strTruthy language && language ≠ some "auto" &&
    !(DEEPGRAM_NOVA2_LANGUAGES.contains (language.getD ""))

/-- `model` chosen by `transcribeDeepgram`:
`useWhisper ? 'whisper-large' : 'nova-2'`. -/
def deepgramModel (language : Option String) : String :=
  if deepgramUseWhisper language then "whisper-large" else "nova-2"

/-- Request URL built by `transcribeDeepgram` (server.js lines 388–391):
base query string, plus `&language=...` only when the language is truthy and
not `'auto'`. -/
def deepgramUrl (language : Option String) : String :=
  let url := "https://api.deepgram.com/v1/listen?model=" ++ deepgramModel language ++
    "&smart_format=true&diarize=false"
  if strTruthy language && language ≠ some "auto" then
    url ++ "&language=" ++ language.getD ""
  else
    url

/-- One word of a Deepgram response (`alternative.words[i]`): start time and
the two text fields the code consults. -/
structure DGWord where
  start : ℚ
  punctuated_word : Option String
  word : String
  deriving DecidableEq, Repr

/-- A synthesized transcript segment.  The source field `end` is a reserved
word in Lean and is rendered `endTime`. -/
structure Segment where
  start : ℚ
  endTime : ℚ
  text : String
  deriving DecidableEq, Repr

/-- `word.punctuated_word || word.word` with JavaScript truthiness. -/
def dgContent (w : DGWord) : String :=
  match w.punctuated_word with
  | some p => if p = "" then w.word else p
  | none => w.word

/-- Body of the `words.forEach` loop in `transcribeDeepgram` (server.js lines
431–451): possibly close the current segment and open a new 5-second slot,
then append the word's content to the current segment's text. -/
def dgStep (acc : Segment × List Segment) (w : DGWord) : Segment × List Segment :=
  let cur := acc.1
  let segs := acc.2
  let content := dgContent w
  let next : Segment × List Segment :=
    if w.start ≥ cur.endTime then
      let segs' := if cur.text ≠ "" then segs ++ [cur] else segs
      let slotIndex : ℤ := ⌊w.start / 5⌋
      let newStart : ℚ := slotIndex * 5
      (⟨newStart, newStart + 5, ""⟩, segs')
    else (cur, segs)
  (⟨next.1.start, next.1.endTime,
    if next.1.text ≠ "" then next.1.text ++ " " ++ content else content⟩,
   next.2)

/-- Fixed 5-second segment synthesis of `transcribeDeepgram` (server.js lines
419–462), including the empty-words fallback to a single zero-timestamped
segment carrying the whole transcript. -/
def deepgramSegments (words : List DGWord) (transcript : String) : List Segment :=
  if words.length > 0 then
    let r := words.foldl dgStep (⟨0, 5, ""⟩, [])
    if r.1.text ≠ "" then r.2 ++ [r.1] else r.2
  else
    [⟨0, 0, transcript⟩]

/-! ## Language forwarding in the three backends (server.js 206–332, 376–397) -/

/-- Command-line argument list built by `transcribeLocal` (server.js lines
214–223): base arguments, with `--language <code>` appended only when the
language is truthy and not `'auto'`.  `outputDir` stands for the ambient
`TEMP_DIR` constant. -/
def localWhisperArgs (audioPath model outputDir : String)
    (language : Option String) : List String :=
  [audioPath, "--model", model, "--output_format", "json",
   "--output_dir", outputDir] ++
    (if strTruthy language && language ≠ some "auto" then
      ["--language", language.getD ""]
    else [])

/-- Scalar multipart form fields appended by `transcribeAPI` (server.js lines
304–315).  The `file` field carries the audio byte stream and is outside this
text-field model. -/
def apiFormFields (language : Option String) : List (String × String) :=
  [("model", "whisper-1"), ("response_format", "verbose_json"),
   ("temperature", "0")] ++
    (if strTruthy language && language ≠ some "auto" then
      [("language", language.getD "")]
    else [])

/-! ## Cost estimator (`/estimate-cost`, server.js lines 676–712) -/

/-- `Number.prototype.toFixed(4)` for an exact rational: sign split, then the
integer `n` minimizing `|n / 10^4 - x|` with ties to the larger `n`, printed
with the fraction zero-padded to four digits.  At every value produced by the
estimator the double and the rational round identically (the products
`minutes * 0.006` are within `10⁻¹²` of a 3-decimal-digit value, far from a
4-decimal rounding boundary). -/
def toFixed4 (x : ℚ) : String :=
  let sign := if x < 0 then "-" else ""
  let y := |x|
  let n : ℕ := (⌊y * 10000 + 1/2⌋).toNat
  let fracStr := toString (n % 10000)
  let padded := String.mk (List.replicate (4 - fracStr.length) '0') ++ fracStr
  sign ++ toString (n / 10000) ++ "." ++ padded

/-- Payload of a successful `/estimate-cost` response. -/
structure EstimateData where
  duration : ℚ
  minutes : ℤ
  cost : String
  formattedCost : String
  mode : String
  deriving DecidableEq, Repr

/-- The `/estimate-cost` handler (server.js lines 676–712).  Inputs: whether
the request body carried a URL, the outcome of the `getVideoInfo` lookup
(reduced to the one field the handler reads, `info.duration`), and the
ambient `TRANSCRIPTION_MODE` string.  `Except.error` is the handler's 400/500
JSON error response, `Except.ok` its success response. -/
def estimateCost (urlPresent : Bool) (videoInfo : Except String ℚ)
    (tmode : String) : Except String EstimateData :=
  if !urlPresent then .error "URL is required"
  else
    match videoInfo with
    | .error e => .error e
    | .ok d =>
      let minutes : ℤ := ⌈d / 60⌉
      if tmode = "local" then
        .ok ⟨d, minutes, "0.00", "FREE (local mode)", "local"⟩
      else
        let cost : ℚ := (minutes : ℚ) * (6 / 1000)
        .ok ⟨d, minutes, toFixed4 cost, "$" ++ toFixed4 cost, "api"⟩

/-! ## Extension transcription cache (`sidepanel.js` lines 1701–1731)

`chrome.storage.local`'s `transcriptionCache` object is modelled as an
association list in key-insertion order (the order `Object.keys` reports for
non-numeric string keys); the transcription payload itself is opaque. -/

/-- One cache entry: `{...transcription, timestamp}`. -/
structure CacheEntry where
  timestamp : ℕ
  payload : String
  deriving DecidableEq, Repr

/-- The cache object. -/
abbrev Cache := List (String × CacheEntry)

/-- One step of the `reduce` in `handleSetCachedTranscription` that finds the
oldest key: `if (!oldest || cache[key].timestamp < cache[oldest].timestamp)`.
The accumulator is the key so far (`null` at the start, modelled `none`), and
`!oldest` is JavaScript truthiness: it also fires when the accumulated key is
the empty string, which is then replaced unconditionally.  Keys carry their
entries here so that `cache[...]` lookups need not be re-modelled; under
distinct keys this is the same reduce. -/
def oldestStep : Option (String × CacheEntry) → String × CacheEntry →
    Option (String × CacheEntry)
  | none, p => some p
  | some o, p =>
    if o.1 = "" ∨ p.2.timestamp < o.2.timestamp then some p else some o

/-- The `reduce` in `handleSetCachedTranscription`, starting from `null`. -/
def oldestEntry (cache : Cache) : Option (String × CacheEntry) :=
  cache.foldl oldestStep none

/-- JavaScript `cache[videoId] = v`: overwrite in place when the key exists,
otherwise append (new string keys enumerate last). -/
def setKey : Cache → String → CacheEntry → Cache
  | [], k, v => [(k, v)]
  | (k', v') :: rest, k, v =>
    if k' = k then (k, v) :: rest else (k', v') :: setKey rest k v

/-- `handleSetCachedTranscription` (sidepanel.js lines 1701–1731): when the
cache already holds at least 50 keys, run the oldest-key reduce and delete
that entry — but only under `if (oldestKey)`, so a falsy result (`null`, or
the empty-string key) skips the delete; then store the new entry under
`videoId` with the current time as its timestamp. -/
def handleSetCachedTranscription (videoId : String) (payload : String)
    (now : ℕ) (cache : Cache) : Cache :=
  let cache1 :=
    if cache.length ≥ 50 then
      match oldestEntry cache with
      | some o => if o.1 ≠ "" then cache.filter (fun p => p.1 ≠ o.1) else cache
      | none => cache
    else cache
  setKey cache1 videoId ⟨now, payload⟩

/-! ## Video id extraction (server.js `extractVideoId` lines 81–93 and the
identical regex in extension `utils.js` `extractVideoIdFromUrl` lines 22–37)

The single pattern
`/(?:youtube\.com\/watch\?.*v=|youtu\.be\/|youtube\.com\/embed\/|youtube\.com\/shorts\/)([a-zA-Z0-9_-]{11})/`
is modelled by a direct backtracking matcher with JavaScript regex
semantics: start positions are scanned left to right, alternatives are tried
in order at each position, and the `.*` is greedy with backtracking (`.`
excludes the four JavaScript line terminators). -/

/-- The capture-group character class `[a-zA-Z0-9_-]`. -/
def isIdChar (c : Char) : Bool :=
  ('a' ≤ c && c ≤ 'z') || ('A' ≤ c && c ≤ 'Z') ||
    ('0' ≤ c && c ≤ '9') || c = '_' || c = '-'

/-- What JavaScript `.` matches (anything but a line terminator). -/
def dotChar (c : Char) : Bool :=
  c ≠ '\n' && c ≠ '\r' && c ≠ '\u2028' && c ≠ '\u2029'

/-- The capture group `([a-zA-Z0-9_-]{11})`: exactly the next 11 characters,
all in the class; the pattern is not anchored afterwards. -/
def tryGroup (cs : List Char) : Option String :=
  let g := cs.take 11
  if g.length = 11 && g.all isIdChar then some (String.mk g) else none

/-- Match a literal prefix, returning the rest. -/
def dropLit : List Char → List Char → Option (List Char)
  | [], cs => some cs
  | _ :: _, [] => none
  | l :: ls, c :: cs => if c = l then dropLit ls cs else none

/-- The literal `v=` followed by the capture group, at one position. -/
def vEqHere : Char → List Char → Option String
  | 'v', '=' :: tail => tryGroup tail
  | _, _ => none

/-- The `.*v=` of the first alternative followed by the capture group:
greedy, so longer `.*` consumptions are tried before shorter ones. -/
def greedyVEq : List Char → Option String
  | [] => none
  | c :: rest =>
    match (if dotChar c then greedyVEq rest else none) with
    | some r => some r
    | none => vEqHere c rest

/-- Try the four alternatives, in the pattern's order, at one position. -/
def matchAt (cs : List Char) : Option String :=
  (match dropLit "youtube.com/watch?".toList cs with
   | some rest => greedyVEq rest
   | none => none) <|>
  (match dropLit "youtu.be/".toList cs with
   | some rest => tryGroup rest
   | none => none) <|>
  (match dropLit "youtube.com/embed/".toList cs with
   | some rest => tryGroup rest
   | none => none) <|>
  (match dropLit "youtube.com/shorts/".toList cs with
   | some rest => tryGroup rest
   | none => none)

/-- Scan start positions left to right; first match wins. -/
def extractVideoIdAux : List Char → Option String
  | [] => none
  | c :: rest =>
    match matchAt (c :: rest) with
    | some r => some r
    | none => extractVideoIdAux rest

/-- `extractVideoId` (server.js lines 81–93): the capture group of the first
match, or `null`. -/
def extractVideoId (url : String) : Option String :=
  extractVideoIdAux url.toList

/-- `extractVideoIdFromUrl` (extension utils.js lines 22–37): identical to
the server's, after a falsy-argument guard. -/
def extractVideoIdFromUrl (url : String) : Option String :=
  if url = "" then none else extractVideoId url

/-! ## The `/transcribe` handler (server.js lines 557–671)

The handler is embedded as a pure function from a request environment — the
request fields plus oracles for the outcomes of the three awaited external
actions (`getVideoInfo`, `downloadAudio`, the selected backend) — and an
initial filesystem (a list of paths) to the emitted SSE event sequence, the
final filesystem, the final value of the `audioPath` variable, and whether
the download stage was invoked.  Asynchronous `unlink` scheduling is
modelled as taking effect by the time the handler's effects are observed. -/

/-- Result of `getVideoInfo` (server.js lines 98–132). -/
structure VideoInfo where
  id : String
  title : String
  duration : ℚ
  channel : String
  thumbnail : String
  isLive : Bool
  deriving DecidableEq, Repr

/-- A backend transcription result; `segments` is optional because cloud
backend A returns raw JSON that may lack a `segments` field (the handler
applies `|| []`). -/
structure Transcription where
  text : String
  language : String
  segments : Option (List Segment)
  deriving DecidableEq, Repr

/-- The `complete` event's payload (server.js lines 639–649). -/
structure ResultData where
  videoId : String
  title : String
  channel : String
  duration : ℚ
  text : String
  language : String
  segments : List Segment
  mode : String
  provider : String
  deriving DecidableEq, Repr

/-- One SSE event written by `sendEvent`. -/
inductive Event where
  | info (message : String)
  | error (error : String)
  | complete (data : ResultData)
  deriving DecidableEq, Repr

/-- An event that terminates the stream. -/
def isTerminal : Event → Bool
  | .info _ => false
  | .error _ => true
  | .complete _ => true

/-- `MAX_DURATION_SECONDS = 3 * 60 * 60` (server.js line 35), written as its
value 10800 so that the constant evaluates by kernel reduction. -/
def MAX_DURATION_SECONDS : ℚ := 10800

/-- The catch block's message rewrite (server.js lines 657–660). -/
def authRewrite (message : String) : String :=
  if List.IsInfix "API key".toList message.toList ∨
      List.IsInfix "quota".toList message.toList then
    "API Authentication Failed: " ++ message
  else
    message

/-- Request environment and external-action oracles of one `/transcribe`
request.  `none`/`some ""` model absent/empty (falsy) values.  `dlCreates`
and `txCreates` are the filesystem paths the download and transcription
stages leave behind (arbitrary); `dlExit` and `txResult` are the promise
outcomes, `Except.error` being a thrown exception. -/
structure TranscribeEnv where
  url : Option String
  languageBody : Option String
  apiKey : Option String
  providerHeader : Option String
  modeHeader : Option String
  tmode : String
  tempDir : String
  tempId : String
  videoInfo : Except String VideoInfo
  dlCreates : List String
  dlExit : Except String Unit
  txCreates : List String
  txResult : Except String Transcription
  deriving Repr

/-- `req.headers['x-provider'] || 'openai'`. -/
def TranscribeEnv.provider (env : TranscribeEnv) : String :=
  if strTruthy env.providerHeader then env.providerHeader.getD "" else "openai"

/-- `req.headers['x-mode'] || TRANSCRIPTION_MODE`. -/
def TranscribeEnv.mode (env : TranscribeEnv) : String :=
  if strTruthy env.modeHeader then env.modeHeader.getD "" else env.tmode

/-- `const { url, language = 'auto' } = req.body`: the destructuring default
fires only when the field is absent (`undefined`). -/
def TranscribeEnv.language (env : TranscribeEnv) : Option String :=
  some (env.languageBody.getD "auto")

/-- The per-backend info message (server.js lines 620–633). -/
def backendMessage (mode provider : String) : String :=
  if mode = "local" then "Transcribing with local Whisper..."
  else if provider = "deepgram" then "Transcribing with Deepgram API..."
  else "Transcribing with OpenAI Whisper..."

/-- `downloadAudio`'s post-exit path resolution (server.js lines 165–183):
on exit 0, the first existing path among `outputPath` and
`outputPath + '.mp3'` wins, otherwise the promise rejects.  (The source's
third candidate, `outputPath` with its extension replaced, equals
`outputPath` itself here because the handler's temp ids are dot-free
UUIDs.) -/
def downloadAudioResolve (fs : List String) (outputPath : String)
    (dlExit : Except String Unit) : Except String String :=
  match dlExit with
  | .error e => .error e
  | .ok _ =>
    if fs.contains outputPath then .ok outputPath
    else if fs.contains (outputPath ++ ".mp3") then .ok (outputPath ++ ".mp3")
    else .error "Audio file not found after download"

/-- `cleanup` (server.js lines 474–480): delete the path if it exists. -/
def cleanup (fs : List String) (path : String) : List String :=
  fs.filter (fun p => p ≠ path)

/-- What one `/transcribe` execution leaves behind. -/
structure HandlerResult where
  events : List Event
  fs : List String
  audioPath : Option String
  downloadInvoked : Bool
  deriving Repr

/-- The `/transcribe` handler (server.js lines 557–671): validation, video
info, limit checks, download, backend dispatch, finalization; the `catch`
turns any thrown error into a terminal `error` event (after the auth
rewrite), and the `finally` runs `cleanup` on `audioPath` and
`audioPath + '.mp3'` whenever `audioPath` was assigned. -/
def transcribeHandler (env : TranscribeEnv) (fs0 : List String) : HandlerResult :=
  if strTruthy env.url = false then
    ⟨[.error "URL is required"], fs0, none, false⟩
  else if env.mode = "api" ∧ strTruthy env.apiKey = false ∧ env.provider ≠ "local" then
    ⟨[.error ("API key required for " ++ env.provider ++ " mode.")], fs0, none, false⟩
  else
    match extractVideoId (env.url.getD "") with
    | none => ⟨[.error "Invalid YouTube URL"], fs0, none, false⟩
    | some videoId =>
      match env.videoInfo with
      | .error e =>
        ⟨[.info "Fetching video info...", .error (authRewrite e)], fs0, none, false⟩
      | .ok vi =>
        if vi.duration > MAX_DURATION_SECONDS then
          ⟨[.info "Fetching video info...",
            .error "Video too long. Maximum duration is 3 hours."], fs0, none, false⟩
        else if vi.isLive then
          ⟨[.info "Fetching video info...",
            .error "Cannot transcribe live streams."], fs0, none, false⟩
        else
          match downloadAudioResolve (fs0 ++ env.dlCreates)
              (env.tempDir ++ "/" ++ env.tempId) env.dlExit with
          | .error e =>
            ⟨[.info "Fetching video info...",
              .info "Downloading audio from YouTube...",
              .error (authRewrite e)],
             cleanup (cleanup (fs0 ++ env.dlCreates)
                 (env.tempDir ++ "/" ++ env.tempId))
               ((env.tempDir ++ "/" ++ env.tempId) ++ ".mp3"),
             some (env.tempDir ++ "/" ++ env.tempId), true⟩
          | .ok _actualPath =>
            match env.txResult with
            | .error e =>
              ⟨[.info "Fetching video info...",
                .info "Downloading audio from YouTube...",
                .info (backendMessage env.mode env.provider),
                .error (authRewrite e)],
               cleanup (cleanup (fs0 ++ env.dlCreates ++ env.txCreates)
                   (env.tempDir ++ "/" ++ env.tempId))
                 ((env.tempDir ++ "/" ++ env.tempId) ++ ".mp3"),
               some (env.tempDir ++ "/" ++ env.tempId), true⟩
            | .ok t =>
              ⟨[.info "Fetching video info...",
                .info "Downloading audio from YouTube...",
                .info (backendMessage env.mode env.provider),
                .info "Finalizing...",
                .complete ⟨videoId, vi.title, vi.channel, vi.duration, t.text,
                  t.language, t.segments.getD [], env.mode, env.provider⟩],
               cleanup (cleanup (fs0 ++ env.dlCreates ++ env.txCreates)
                   (env.tempDir ++ "/" ++ env.tempId))
                 ((env.tempDir ++ "/" ++ env.tempId) ++ ".mp3"),
               some (env.tempDir ++ "/" ++ env.tempId), true⟩

/-- A request environment that passes validation and the limit checks and
reaches the download and transcription stages successfully (duration exactly
at the 10800-second ceiling, not live). -/
def testEnvOk : TranscribeEnv :=
  { url := some "https://youtu.be/dQw4w9WgXcQ", languageBody := none,
    apiKey := some "k", providerHeader := none, modeHeader := none,
    tmode := "local", tempDir := "/tmp/yt-transcriber", tempId := "tempaudio",
    videoInfo := .ok ⟨"dQw4w9WgXcQ", "Title", 10800, "Chan", "thumb", false⟩,
    dlCreates := ["/tmp/yt-transcriber/tempaudio.mp3"], dlExit := .ok (),
    txCreates := [], txResult := .ok ⟨"hello world", "en", none⟩ }

/-- The same request with a resolved duration one second over the ceiling. -/
def testEnvLong : TranscribeEnv :=
  { testEnvOk with
    videoInfo := .ok ⟨"dQw4w9WgXcQ", "Title", 10801, "Chan", "thumb", false⟩ }

/-- A concrete 50-entry cache (keys "0".."49", timestamps 0..49) used to
instantiate the cache theorems. -/
def testCache : Cache :=
  (List.range 50).map (fun i => (toString i, ⟨i, ""⟩))

/-- A 50-entry cache whose last entry is keyed by the empty string and has
the strictly smallest timestamp (keys "1".."49", ""). -/
def testCacheEmptyLast : Cache :=
  (List.range 49).map (fun i => (toString (i + 1), ⟨i + 1, ""⟩)) ++ [("", ⟨0, ""⟩)]

end Spoken

namespace Spoken

/-- C2: on words with start times 0, 2, 4.9, 5.0, 7, 12.1 the Deepgram
backend synthesizes exactly the three segments [0,5), [5,10), [10,15), with
the 4.9 word in the first, the boundary word 5.0 opening the second, and the
12.1 word alone in the third, each segment's text being the space-joined
words in order. -/
theorem deepgram_segments_example :
    deepgramSegments
      [⟨0, none, "a"⟩, ⟨2, none, "b"⟩, ⟨49/10, none, "c"⟩,
       ⟨5, none, "d"⟩, ⟨7, none, "e"⟩, ⟨121/10, none, "f"⟩] "t" =
      [⟨0, 5, "a b c"⟩, ⟨5, 10, "d e"⟩, ⟨10, 15, "f"⟩] := by
  norm_num [deepgramSegments, dgStep, dgContent]
  decide

/-- C5 counterexample: the empty-string language code is neither `'auto'` nor
in the Nova-2 allow-list, yet the Deepgram backend selects `'nova-2'`, not
`'whisper-large'` — the empty string is falsy, so the allow-list is never
consulted. -/
theorem deepgram_model_empty_language_counterexample :
    deepgramModel (some "") = "nova-2" ∧
    "" ∉ DEEPGRAM_NOVA2_LANGUAGES ∧ "" ≠ "auto" := by
  decide

/-- C5 (amended): a language code in the Nova-2 allow-list selects
`'nova-2'`; a non-empty code other than `'auto'` absent from the allow-list
selects `'whisper-large'`; an absent, `'auto'`, or empty language selects
`'nova-2'`. -/
theorem deepgram_model_selection :
    (∀ s, s ∈ DEEPGRAM_NOVA2_LANGUAGES → deepgramModel (some s) = "nova-2") ∧
    (∀ s, s ≠ "" → s ≠ "auto" → s ∉ DEEPGRAM_NOVA2_LANGUAGES →
      deepgramModel (some s) = "whisper-large") ∧
    deepgramModel none = "nova-2" ∧
    deepgramModel (some "auto") = "nova-2" ∧
    deepgramModel (some "") = "nova-2" := by
  refine ⟨fun s hs => ?_, fun s h1 h2 h3 => ?_, by decide, by decide, by decide⟩
  · have hw : deepgramUseWhisper (some s) = false := by
      simp [deepgramUseWhisper, hs]
    simp [deepgramModel, hw]
  · have hw : deepgramUseWhisper (some s) = true := by
      simp [deepgramUseWhisper, strTruthy, h1, h2, h3]
    simp [deepgramModel, hw]

/-- C5 witness: the Urdu code `"ur"` is non-empty, not `'auto'`, and outside
the allow-list, and selects `'whisper-large'`. -/
theorem deepgram_model_selection_witness :
    deepgramModel (some "ur") = "whisper-large" :=
  deepgram_model_selection.2.1 "ur" (by decide) (by decide) (by decide)

/-- C6: for an absent or `'auto'` language hint no backend forwards a
language value (the local backend's argument list, cloud backend A's form
fields and cloud backend B's query string are exactly their base forms), and
for any non-empty hint other than `'auto'` each backend forwards the value. -/
theorem auto_language_elided :
    (∀ lang, (lang = none ∨ lang = some "auto") →
      ∀ ap m od,
        localWhisperArgs ap m od lang =
          [ap, "--model", m, "--output_format", "json", "--output_dir", od] ∧
        apiFormFields lang =
          [("model", "whisper-1"), ("response_format", "verbose_json"),
           ("temperature", "0")] ∧
        deepgramUrl lang = "https://api.deepgram.com/v1/listen?model=" ++
          deepgramModel lang ++ "&smart_format=true&diarize=false") ∧
    (∀ s, s ≠ "" → s ≠ "auto" →
      ∀ ap m od,
        localWhisperArgs ap m od (some s) =
          [ap, "--model", m, "--output_format", "json", "--output_dir", od,
           "--language", s] ∧
        apiFormFields (some s) =
          [("model", "whisper-1"), ("response_format", "verbose_json"),
           ("temperature", "0"), ("language", s)] ∧
        deepgramUrl (some s) = "https://api.deepgram.com/v1/listen?model=" ++
          deepgramModel (some s) ++ "&smart_format=true&diarize=false" ++
          "&language=" ++ s) := by
  constructor
  · rintro lang (rfl | rfl) ap m od <;>
      simp [localWhisperArgs, apiFormFields, deepgramUrl, strTruthy]
  · intro s h1 h2 ap m od
    simp [localWhisperArgs, apiFormFields, deepgramUrl, strTruthy, h1, h2]

/-- C6 witness: at the concrete hint `'auto'` nothing is forwarded, and at
the concrete non-empty hint `"ur"` the value is forwarded by all three
backends. -/
theorem auto_language_elided_witness :
    (localWhisperArgs "a.mp3" "base" "/tmp" (some "auto") =
      ["a.mp3", "--model", "base", "--output_format", "json",
       "--output_dir", "/tmp"] ∧
     apiFormFields (some "auto") =
      [("model", "whisper-1"), ("response_format", "verbose_json"),
       ("temperature", "0")] ∧
     deepgramUrl (some "auto") = "https://api.deepgram.com/v1/listen?model=" ++
       deepgramModel (some "auto") ++ "&smart_format=true&diarize=false") ∧
    (localWhisperArgs "a.mp3" "base" "/tmp" (some "ur") =
      ["a.mp3", "--model", "base", "--output_format", "json",
       "--output_dir", "/tmp", "--language", "ur"] ∧
     apiFormFields (some "ur") =
      [("model", "whisper-1"), ("response_format", "verbose_json"),
       ("temperature", "0"), ("language", "ur")] ∧
     deepgramUrl (some "ur") = "https://api.deepgram.com/v1/listen?model=" ++
       deepgramModel (some "ur") ++ "&smart_format=true&diarize=false" ++
       "&language=" ++ "ur") :=
  ⟨auto_language_elided.1 (some "auto") (Or.inr rfl) "a.mp3" "base" "/tmp",
   auto_language_elided.2 "ur" (by decide) (by decide) "a.mp3" "base" "/tmp"⟩

/-- C8 counterexample: a resolved duration of −60 seconds is not rejected —
the handler has no negativity check and responds successfully, with −1
minutes and a negative cost string. -/
theorem estimate_negative_duration_not_rejected :
    estimateCost true (.ok (-60)) "api" =
      .ok ⟨-60, -1, "-0.0060", "$-0.0060", "api"⟩ := by
  have hceil : (⌈(-60 : ℚ) / 60⌉ : ℤ) = -1 := by
    rw [Int.ceil_eq_iff]; norm_num
  have hfloor : (⌊|(((-1 : ℤ) : ℚ) * (6 / 1000))| * 10000 + 1 / 2⌋ : ℤ) = 60 := by
    rw [Int.floor_eq_iff]; norm_num [abs_of_nonneg]
  simp only [estimateCost, hceil, toFixed4, hfloor]
  rw [if_neg (by decide),
    if_pos (show (((-1 : ℤ) : ℚ) * (6 / 1000)) < 0 by push_cast; norm_num)]
  refine congrArg Except.ok ?_
  simp only [EstimateData.mk.injEq, and_true, true_and]
  exact ⟨by decide, by decide⟩

/-- C8 (amended): a negative resolved duration is not rejected — the handler
has no negativity check and succeeds on every resolved duration; for every
non-negative duration it succeeds with minutes equal to the ceiling of
duration/60, a zero cost in local mode, and minutes times the fixed 0.006
per-minute rate in API mode; at 600 seconds in API mode the cost is exactly
"0.0600". -/
theorem estimate_cost_behaviour :
    (∀ (d : ℚ) (m : String), ∃ data, estimateCost true (.ok d) m = .ok data) ∧
    (∀ (d : ℚ) (m : String), 0 ≤ d → ∃ data,
      estimateCost true (.ok d) m = .ok data ∧
      data.minutes = ⌈d / 60⌉ ∧
      (m = "local" → data.cost = "0.00") ∧
      (m ≠ "local" → data.cost = toFixed4 ((⌈d / 60⌉ : ℚ) * (6 / 1000)))) ∧
    estimateCost true (.ok 600) "api" =
      .ok ⟨600, 10, "0.0600", "$0.0600", "api"⟩ := by
  refine ⟨fun d m => ?_, fun d m hd => ?_, ?_⟩
  · by_cases hm : m = "local"
    · exact ⟨⟨d, ⌈d / 60⌉, "0.00", "FREE (local mode)", "local"⟩,
        by simp [estimateCost, hm]⟩
    · exact ⟨⟨d, ⌈d / 60⌉, toFixed4 ((⌈d / 60⌉ : ℚ) * (6 / 1000)),
        "$" ++ toFixed4 ((⌈d / 60⌉ : ℚ) * (6 / 1000)), "api"⟩,
        by simp [estimateCost, hm]⟩
  · by_cases hm : m = "local"
    · exact ⟨⟨d, ⌈d / 60⌉, "0.00", "FREE (local mode)", "local"⟩,
        by simp [estimateCost, hm], rfl, fun _ => rfl, fun h => absurd hm h⟩
    · exact ⟨⟨d, ⌈d / 60⌉, toFixed4 ((⌈d / 60⌉ : ℚ) * (6 / 1000)),
        "$" ++ toFixed4 ((⌈d / 60⌉ : ℚ) * (6 / 1000)), "api"⟩,
        by simp [estimateCost, hm], rfl, fun h => absurd h hm, fun _ => rfl⟩
  · have hceil : (⌈(600 : ℚ) / 60⌉ : ℤ) = 10 := by
      rw [Int.ceil_eq_iff]; norm_num
    have hfloor : (⌊|(((10 : ℤ) : ℚ) * (6 / 1000))| * 10000 + 1 / 2⌋ : ℤ) = 600 := by
      rw [Int.floor_eq_iff]; norm_num [abs_of_nonneg]
    simp only [estimateCost, hceil, toFixed4, hfloor]
    rw [if_neg (by decide),
      if_neg (show ¬ (((10 : ℤ) : ℚ) * (6 / 1000)) < 0 by push_cast; norm_num)]
    refine congrArg Except.ok ?_
    simp only [EstimateData.mk.injEq, and_true, true_and]
    exact ⟨by decide, by decide⟩

/-- C8 witness: at 600 seconds (non-negative) in API mode the estimator
succeeds with 10 minutes and the API-mode cost formula. -/
theorem estimate_cost_behaviour_witness :
    ∃ data, estimateCost true (.ok 600) "api" = .ok data ∧
      data.minutes = ⌈(600 : ℚ) / 60⌉ ∧
      ("api" = "local" → data.cost = "0.00") ∧
      ("api" ≠ "local" → data.cost = toFixed4 ((⌈(600 : ℚ) / 60⌉ : ℚ) * (6 / 1000))) :=
  estimate_cost_behaviour.2.1 600 "api" (by norm_num)

/-- Folding `oldestStep` from a populated, truthy-keyed accumulator over a
list with no empty-string key yields the accumulator or a list member, never
of larger timestamp than either. -/
theorem oldestStep_foldl_spec (l : Cache) :
    ∀ acc o : String × CacheEntry,
      acc.1 ≠ "" → (∀ p ∈ l, p.1 ≠ "") →
      l.foldl oldestStep (some acc) = some o →
      (o = acc ∨ o ∈ l) ∧ o.2.timestamp ≤ acc.2.timestamp ∧
        ∀ p ∈ l, o.2.timestamp ≤ p.2.timestamp := by
  induction l with
  | nil =>
    intro acc o _ _ h
    obtain rfl : acc = o := by simpa using h
    exact ⟨Or.inl rfl, le_refl _, by simp⟩
  | cons x l ih =>
    intro acc o hacc hkeys h
    rw [List.foldl_cons] at h
    by_cases hx : x.2.timestamp < acc.2.timestamp
    · rw [show oldestStep (some acc) x = some x from by
        simp [oldestStep, hx]] at h
      obtain ⟨ho, hle, hall⟩ := ih x o (hkeys x (List.mem_cons_self _ _))
        (fun p hp => hkeys p (List.mem_cons_of_mem _ hp)) h
      refine ⟨Or.inr ?_, le_trans hle (le_of_lt hx), ?_⟩
      · rcases ho with rfl | hm
        · exact List.mem_cons_self _ _
        · exact List.mem_cons_of_mem _ hm
      · intro p hp
        rcases List.mem_cons.mp hp with rfl | hm
        · exact hle
        · exact hall p hm
    · rw [show oldestStep (some acc) x = some acc from by
        simp [oldestStep, hacc, hx]] at h
      obtain ⟨ho, hle, hall⟩ := ih acc o hacc
        (fun p hp => hkeys p (List.mem_cons_of_mem _ hp)) h
      refine ⟨?_, hle, ?_⟩
      · rcases ho with rfl | hm
        · exact Or.inl rfl
        · exact Or.inr (List.mem_cons_of_mem _ hm)
      · intro p hp
        rcases List.mem_cons.mp hp with rfl | hm
        · exact le_trans hle (not_lt.mp hx)
        · exact hall p hm

/-- Folding `oldestStep` from a populated accumulator always yields `some`. -/
theorem oldestStep_foldl_isSome (l : Cache) :
    ∀ acc : String × CacheEntry, ∃ o, l.foldl oldestStep (some acc) = some o := by
  induction l with
  | nil => exact fun acc => ⟨acc, rfl⟩
  | cons x l ih =>
    intro acc
    rw [List.foldl_cons]
    by_cases hx : acc.1 = "" ∨ x.2.timestamp < acc.2.timestamp
    · rw [show oldestStep (some acc) x = some x from by simp [oldestStep, hx]]
      exact ih x
    · rw [show oldestStep (some acc) x = some acc from by
        simp only [oldestStep, if_neg hx]]
      exact ih acc

/-- On a non-empty cache with no empty-string key, the `reduce` of
`handleSetCachedTranscription` returns a member of minimal timestamp, with a
truthy key. -/
theorem oldestEntry_spec (cache : Cache) (hne : cache ≠ [])
    (hkeys : ∀ p ∈ cache, p.1 ≠ "") :
    ∃ o, oldestEntry cache = some o ∧ o ∈ cache ∧ o.1 ≠ "" ∧
      ∀ p ∈ cache, o.2.timestamp ≤ p.2.timestamp := by
  match cache, hne with
  | x :: l, _ =>
    have hstep : oldestEntry (x :: l) = l.foldl oldestStep (some x) := by
      simp [oldestEntry, oldestStep]
    obtain ⟨o, ho⟩ := oldestStep_foldl_isSome l x
    obtain ⟨hmem, hle, hall⟩ := oldestStep_foldl_spec l x o
      (hkeys x (List.mem_cons_self _ _))
      (fun p hp => hkeys p (List.mem_cons_of_mem _ hp)) ho
    have homem : o ∈ x :: l := by
      rcases hmem with rfl | hm
      · exact List.mem_cons_self _ _
      · exact List.mem_cons_of_mem _ hm
    refine ⟨o, by rw [hstep, ho], homem, hkeys o homem, ?_⟩
    intro p hp
    rcases List.mem_cons.mp hp with rfl | hm
    · exact hle
    · exact hall p hm

/-- `cache[videoId] = v` on an existing key keeps the key list unchanged. -/
theorem setKey_map_fst_of_mem (l : Cache) (k : String) (v : CacheEntry)
    (h : k ∈ l.map Prod.fst) : (setKey l k v).map Prod.fst = l.map Prod.fst := by
  induction l with
  | nil => simp at h
  | cons x l ih =>
    obtain ⟨k', v'⟩ := x
    by_cases hk : k' = k
    · subst hk
      simp [setKey]
    · simp only [List.map_cons, List.mem_cons] at h
      rcases h with h | h
      · exact absurd h.symm hk
      · simp [setKey, hk, ih h]

/-- `cache[videoId] = v` never changes the length by more than one, and keeps
it unchanged on an existing key. -/
theorem setKey_length (l : Cache) (k : String) (v : CacheEntry) :
    (setKey l k v).length = l.length ∨
      (setKey l k v).length = l.length + 1 := by
  induction l with
  | nil => exact Or.inr rfl
  | cons x l ih =>
    obtain ⟨k', v'⟩ := x
    by_cases hk : k' = k
    · subst hk
      simp [setKey]
    · rcases ih with h | h <;> simp [setKey, hk, h]

/-- Deleting an existing key from a nodup-keyed cache removes exactly one
pair. -/
theorem filter_key_length (l : Cache) (k : String)
    (hnd : (l.map Prod.fst).Nodup) (hmem : k ∈ l.map Prod.fst) :
    (l.filter (fun p => p.1 ≠ k)).length + 1 = l.length := by
  induction l with
  | nil => simp at hmem
  | cons x l ih =>
    simp only [List.map_cons, List.nodup_cons] at hnd
    by_cases hk : x.1 = k
    · subst hk
      have hrest : l.filter (fun p => p.1 ≠ x.1) = l := by
        refine List.filter_eq_self.mpr fun p hp => ?_
        simp only [ne_eq, decide_eq_true_eq]
        intro hpx
        exact hnd.1 (hpx ▸ List.mem_map_of_mem Prod.fst hp)
      rw [List.filter_cons_of_neg (by simp), hrest]
      simp
    · simp only [List.map_cons, List.mem_cons] at hmem
      rcases hmem with hmem | hmem
      · exact absurd hmem.symm hk
      · have ihl := ih hnd.2 hmem
        rw [List.filter_cons_of_pos (by simp [hk]), List.length_cons,
          List.length_cons]
        omega

/-- Deleting some member's key removes at least one pair. -/
theorem length_filter_key_lt (l : Cache) (o : String × CacheEntry)
    (ho : o ∈ l) : (l.filter (fun p => p.1 ≠ o.1)).length < l.length := by
  induction l with
  | nil => simp at ho
  | cons x l ih =>
    have hle := List.length_filter_le (fun p => decide (p.1 ≠ o.1)) l
    rcases List.mem_cons.mp ho with rfl | hm
    · rw [List.filter_cons_of_neg (by simp)]
      simp only [List.length_cons]
      omega
    · by_cases hx : x.1 = o.1
      · rw [List.filter_cons_of_neg (by simp [hx])]
        simp only [List.length_cons]
        omega
      · rw [List.filter_cons_of_pos (by simp [hx])]
        have := ih hm
        simp only [List.length_cons]
        omega

/-- C10 counterexample: on a 50-entry cache whose last entry is keyed by the
empty string and has the smallest timestamp, the reduce returns that falsy
key, `if (oldestKey)` skips the delete, and inserting a fresh id grows the
cache to 51 entries. -/
theorem cache_grow_past_fifty_counterexample :
    testCacheEmptyLast.length = 50 ∧
    (handleSetCachedTranscription "v" "tx" 1000 testCacheEmptyLast).length = 51 := by
  decide

/-- C10 (amended): a set operation never leaves more than 50 entries in a
cache that held at most 50 of which none is keyed by the empty string; and
at exactly 50 such entries the eviction runs even when the inserted id is
already a key, so when the minimal-timestamp entry is keyed differently it
is deleted and the overwrite shrinks the cache to 49.  (With an empty-string
key present, the skipped delete can let the cache grow to 51.) -/
theorem cache_set_bound_and_overwrite :
    (∀ (cache : Cache) (vid payload : String) (now : ℕ),
      "" ∉ cache.map Prod.fst →
      cache.length ≤ 50 →
      (handleSetCachedTranscription vid payload now cache).length ≤ 50) ∧
    (∀ (cache : Cache) (vid payload : String) (now : ℕ),
      (cache.map Prod.fst).Nodup →
      "" ∉ cache.map Prod.fst →
      cache.length = 50 →
      vid ∈ cache.map Prod.fst →
      (∀ p ∈ cache, (∀ q ∈ cache, p.2.timestamp ≤ q.2.timestamp) → p.1 ≠ vid) →
      ∃ o ∈ cache, (∀ q ∈ cache, o.2.timestamp ≤ q.2.timestamp) ∧
        o.1 ∉ (handleSetCachedTranscription vid payload now cache).map Prod.fst ∧
        vid ∈ (handleSetCachedTranscription vid payload now cache).map Prod.fst ∧
        (handleSetCachedTranscription vid payload now cache).length = 49) := by
  constructor
  · intro cache vid payload now hempty hle
    have hkeysne : ∀ p ∈ cache, p.1 ≠ "" := fun p hp hpe =>
      hempty (hpe ▸ List.mem_map_of_mem Prod.fst hp)
    by_cases hge : cache.length ≥ 50
    · have hne : cache ≠ [] := by
        intro h
        rw [h] at hge
        simp at hge
      obtain ⟨o, hold, homem, honempty, hmin⟩ := oldestEntry_spec cache hne hkeysne
      have hres : handleSetCachedTranscription vid payload now cache =
          setKey (cache.filter (fun p => p.1 ≠ o.1)) vid ⟨now, payload⟩ := by
        unfold handleSetCachedTranscription
        rw [if_pos hge]
        simp only [hold]
        rw [if_pos honempty]
      have hflt := length_filter_key_lt cache o homem
      rcases setKey_length (cache.filter (fun p => p.1 ≠ o.1)) vid ⟨now, payload⟩
        with h | h <;> rw [hres] <;> omega
    · have hres : handleSetCachedTranscription vid payload now cache =
          setKey cache vid ⟨now, payload⟩ := by
        unfold handleSetCachedTranscription
        rw [if_neg hge]
      rcases setKey_length cache vid ⟨now, payload⟩ with h | h <;>
        rw [hres] <;> omega
  · intro cache vid payload now hkeys hempty hlen hvid hsafe
    have hne : cache ≠ [] := by
      intro h
      rw [h] at hlen
      simp at hlen
    have hkeysne : ∀ p ∈ cache, p.1 ≠ "" := fun p hp hpe =>
      hempty (hpe ▸ List.mem_map_of_mem Prod.fst hp)
    obtain ⟨o, hold, homem, honempty, hmin⟩ := oldestEntry_spec cache hne hkeysne
    have hge : cache.length ≥ 50 := by omega
    have hovid : o.1 ≠ vid := hsafe o homem hmin
    have hres : handleSetCachedTranscription vid payload now cache =
        setKey (cache.filter (fun p => p.1 ≠ o.1)) vid ⟨now, payload⟩ := by
      unfold handleSetCachedTranscription
      rw [if_pos hge]
      simp only [hold]
      rw [if_pos honempty]
    have hvidf : vid ∈ (cache.filter (fun p => p.1 ≠ o.1)).map Prod.fst := by
      obtain ⟨p, hp, hpe⟩ := List.mem_map.mp hvid
      refine List.mem_map.mpr ⟨p, List.mem_filter.mpr ⟨hp, ?_⟩, hpe⟩
      simp only [ne_eq, decide_eq_true_eq]
      intro hcon
      exact hovid (hcon ▸ hpe)
    have hkeysres : (handleSetCachedTranscription vid payload now cache).map Prod.fst =
        (cache.filter (fun p => p.1 ≠ o.1)).map Prod.fst := by
      rw [hres]
      exact setKey_map_fst_of_mem _ _ _ hvidf
    have h49 := filter_key_length cache o.1 hkeys (List.mem_map_of_mem Prod.fst homem)
    refine ⟨o, homem, hmin, ?_, ?_, ?_⟩
    · rw [hkeysres]
      intro hcon
      obtain ⟨p, hp, hpe⟩ := List.mem_map.mp hcon
      have := List.mem_filter.mp hp
      simp only [ne_eq, decide_eq_true_eq] at this
      exact this.2 hpe
    · rw [hkeysres]
      exact hvidf
    · have : (handleSetCachedTranscription vid payload now cache).length =
          ((handleSetCachedTranscription vid payload now cache).map Prod.fst).length := by
        rw [List.length_map]
      rw [this, hkeysres, List.length_map]
      omega

/-- C10 witness: on the concrete 50-entry `testCache` (no empty-string key),
a set under a fresh key stays within 50 entries, and a set under the
existing key "7" (not the oldest) evicts the minimal entry and shrinks the
cache to 49. -/
theorem cache_set_bound_and_overwrite_witness :
    (handleSetCachedTranscription "v" "tx" 1000 testCache).length ≤ 50 ∧
    ∃ o ∈ testCache, (∀ q ∈ testCache, o.2.timestamp ≤ q.2.timestamp) ∧
      o.1 ∉ (handleSetCachedTranscription "7" "tx" 1000 testCache).map Prod.fst ∧
      "7" ∈ (handleSetCachedTranscription "7" "tx" 1000 testCache).map Prod.fst ∧
      (handleSetCachedTranscription "7" "tx" 1000 testCache).length = 49 :=
  ⟨cache_set_bound_and_overwrite.1 testCache "v" "tx" 1000 (by decide) (by decide),
   cache_set_bound_and_overwrite.2 testCache "7" "tx" 1000
     (by decide) (by decide) (by decide) (by decide) (by decide)⟩

/-- Anything the capture group returns has exactly 11 characters, all in the
id character class. -/
theorem tryGroup_spec (cs : List Char) (s : String) (h : tryGroup cs = some s) :
    s.length = 11 ∧ s.toList.all isIdChar = true := by
  simp only [tryGroup] at h
  split at h
  · rename_i hc
    obtain rfl : String.mk (cs.take 11) = s := by
      simpa using h
    simp only [Bool.and_eq_true, decide_eq_true_eq] at hc
    exact ⟨hc.1, hc.2⟩
  · exact absurd h (by simp)

/-- Anything the `v=`-here matcher returns comes from the capture group. -/
theorem vEqHere_spec (c : Char) (rest : List Char) (s : String)
    (h : vEqHere c rest = some s) :
    s.length = 11 ∧ s.toList.all isIdChar = true := by
  unfold vEqHere at h
  split at h
  · exact tryGroup_spec _ _ h
  · exact absurd h (by simp)

/-- Anything the `.*v=`-plus-group matcher returns comes from the capture
group. -/
theorem greedyVEq_spec : ∀ (cs : List Char) (s : String),
    greedyVEq cs = some s → s.length = 11 ∧ s.toList.all isIdChar = true := by
  intro cs
  induction cs with
  | nil =>
    intro s h
    simp [greedyVEq] at h
  | cons c rest ih =>
    intro s h
    rw [greedyVEq] at h
    cases hif : (if dotChar c then greedyVEq rest else none) with
    | some r =>
      rw [hif] at h
      obtain rfl : r = s := by simpa using h
      by_cases hdot : dotChar c
      · rw [if_pos hdot] at hif
        exact ih r hif
      · rw [if_neg hdot] at hif
        exact absurd hif (by simp)
    | none =>
      rw [hif] at h
      exact vEqHere_spec c rest s h

/-- Anything a single-position match returns comes from the capture group. -/
theorem matchAt_spec (cs : List Char) (s : String) (h : matchAt cs = some s) :
    s.length = 11 ∧ s.toList.all isIdChar = true := by
  unfold matchAt at h
  rw [Option.orElse_eq_some] at h
  rcases h with h | ⟨-, h⟩
  · split at h
    · exact greedyVEq_spec _ _ h
    · exact absurd h (by simp)
  · rw [Option.orElse_eq_some] at h
    rcases h with h | ⟨-, h⟩
    · split at h
      · exact tryGroup_spec _ _ h
      · exact absurd h (by simp)
    · rw [Option.orElse_eq_some] at h
      rcases h with h | ⟨-, h⟩
      · split at h
        · exact tryGroup_spec _ _ h
        · exact absurd h (by simp)
      · split at h
        · exact tryGroup_spec _ _ h
        · exact absurd h (by simp)

/-- Anything the position scan returns comes from the capture group. -/
theorem extractVideoIdAux_spec : ∀ (cs : List Char) (s : String),
    extractVideoIdAux cs = some s →
    s.length = 11 ∧ s.toList.all isIdChar = true := by
  intro cs
  induction cs with
  | nil =>
    intro s h
    simp [extractVideoIdAux] at h
  | cons c rest ih =>
    intro s h
    rw [extractVideoIdAux] at h
    cases hm : matchAt (c :: rest) with
    | some r =>
      rw [hm] at h
      obtain rfl : r = s := by simpa using h
      exact matchAt_spec _ _ hm
    | none =>
      rw [hm] at h
      exact ih s h

/-- C9: the video-id extractor returns null or a string of exactly 11
characters from [A-Za-z0-9_-]; the extension-side extractor agrees with the
server-side one on every input; and, the pattern being unanchored after the
group, a URL whose id path continues past 11 valid characters is accepted
with the first 11 characters returned (watch and short-link forms shown on
a 16-character id path). -/
theorem extractVideoId_shape :
    (∀ url : String, extractVideoId url = none ∨
      ∃ s, extractVideoId url = some s ∧ s.length = 11 ∧
        s.toList.all isIdChar = true) ∧
    (∀ url : String, extractVideoIdFromUrl url = extractVideoId url) ∧
    extractVideoId "https://www.youtube.com/watch?v=abcdefghijklmnop" =
      some "abcdefghijk" ∧
    extractVideoId "https://youtu.be/abcdefghijklmnop" = some "abcdefghijk" := by
  refine ⟨fun url => ?_, fun url => ?_, by decide, by decide⟩
  · cases h : extractVideoId url with
    | none => exact Or.inl rfl
    | some s => exact Or.inr ⟨s, rfl, extractVideoIdAux_spec _ _ h⟩
  · by_cases h : url = ""
    · subst h
      decide
    · simp [extractVideoIdFromUrl, h]

/-- A deleted path is gone. -/
theorem not_mem_cleanup_self (fs : List String) (p : String) :
    p ∉ cleanup fs p := by
  simp [cleanup]

/-- `cleanup` only removes paths. -/
theorem mem_of_mem_cleanup {fs : List String} {p q : String}
    (h : q ∈ cleanup fs p) : q ∈ fs :=
  List.mem_of_mem_filter h

/-- C1: whenever a `/transcribe` execution assigned the temp audio path
(equivalently, reached the download stage), the handler's final filesystem
contains neither that path nor its `.mp3`-suffixed variant — on the success
path, the emitted-error paths, and the thrown-exception paths alike. -/
theorem transcribe_cleanup (env : TranscribeEnv) (fs0 : List String)
    (ap : String)
    (h : (transcribeHandler env fs0).audioPath = some ap) :
    ap ∉ (transcribeHandler env fs0).fs ∧
      (ap ++ ".mp3") ∉ (transcribeHandler env fs0).fs := by
  revert h
  unfold transcribeHandler
  repeat' split
  all_goals intro h
  all_goals first
  | (obtain rfl : env.tempDir ++ "/" ++ env.tempId = ap := Option.some.inj h
     constructor
     · intro hmem
       exact not_mem_cleanup_self _ _ (mem_of_mem_cleanup hmem)
     · exact not_mem_cleanup_self _ _)
  | simp at h

/-- C1 witness: a concrete successful request (duration 10800, not live)
reaches the download stage and leaves neither temp file behind. -/
theorem transcribe_cleanup_witness :
    "/tmp/yt-transcriber/tempaudio" ∉ (transcribeHandler testEnvOk []).fs ∧
      ("/tmp/yt-transcriber/tempaudio" ++ ".mp3") ∉
        (transcribeHandler testEnvOk []).fs :=
  transcribe_cleanup testEnvOk [] "/tmp/yt-transcriber/tempaudio" (by decide)

/-- C3: once a request passes validation (URL present, credential check, id
extracted) and the video info resolves, a duration above the 10800-second
ceiling or a live flag yields a last-emitted terminal error event with no
download invoked, while a duration of exactly the ceiling on a non-live
video reaches the download stage. -/
theorem transcribe_limit_checks (env : TranscribeEnv) (fs0 : List String)
    (vi : VideoInfo) (v : String)
    (hurl : strTruthy env.url = true)
    (hcred : ¬(env.mode = "api" ∧ strTruthy env.apiKey = false ∧
      env.provider ≠ "local"))
    (hv : extractVideoId (env.url.getD "") = some v)
    (hinfo : env.videoInfo = .ok vi) :
    ((vi.duration > MAX_DURATION_SECONDS ∨ vi.isLive = true) →
      (transcribeHandler env fs0).downloadInvoked = false ∧
      ∃ msg, (transcribeHandler env fs0).events.getLast? =
        some (.error msg)) ∧
    ((vi.duration = MAX_DURATION_SECONDS ∧ vi.isLive = false) →
      (transcribeHandler env fs0).downloadInvoked = true) := by
  have hnotu : ¬ (strTruthy env.url = false) := by simp [hurl]
  constructor
  · intro hbad
    by_cases hdur : vi.duration > MAX_DURATION_SECONDS
    · simp only [transcribeHandler, if_neg hnotu, if_neg hcred, hv, hinfo,
        if_pos hdur]
      exact ⟨by trivial, _, rfl⟩
    · have hlive : vi.isLive = true := by
        rcases hbad with hb | hb
        · exact absurd hb hdur
        · exact hb
      simp only [transcribeHandler, if_neg hnotu, if_neg hcred, hv, hinfo,
        if_neg hdur, if_pos hlive]
      exact ⟨by trivial, _, rfl⟩
  · rintro ⟨hdur, hlive⟩
    have hngt : ¬ (vi.duration > MAX_DURATION_SECONDS) := by
      rw [hdur]
      exact lt_irrefl _
    have hnl : ¬ (vi.isLive = true) := by simp [hlive]
    simp only [transcribeHandler, if_neg hnotu, if_neg hcred, hv, hinfo,
      if_neg hngt, if_neg hnl]
    split
    · rfl
    · split
      · rfl
      · rfl

/-- C3 witness: at duration 10801 the concrete request emits a terminal
error without downloading, and at exactly 10800 it reaches the download
stage. -/
theorem transcribe_limit_checks_witness :
    ((transcribeHandler testEnvLong []).downloadInvoked = false ∧
      ∃ msg, (transcribeHandler testEnvLong []).events.getLast? =
        some (.error msg)) ∧
    (transcribeHandler testEnvOk []).downloadInvoked = true :=
  ⟨(transcribe_limit_checks testEnvLong []
      ⟨"dQw4w9WgXcQ", "Title", 10801, "Chan", "thumb", false⟩ "dQw4w9WgXcQ"
      (by decide) (by decide) (by decide) rfl).1 (Or.inl (by decide)),
   (transcribe_limit_checks testEnvOk []
      ⟨"dQw4w9WgXcQ", "Title", 10800, "Chan", "thumb", false⟩ "dQw4w9WgXcQ"
      (by decide) (by decide) (by decide) rfl).2 ⟨by decide, rfl⟩⟩

/-- C4: every `/transcribe` execution emits exactly one terminal event —
an error or a complete — and it is the last event emitted; every earlier
event is an info. -/
theorem transcribe_single_terminal (env : TranscribeEnv) (fs0 : List String) :
    ∃ pre e, (transcribeHandler env fs0).events = pre ++ [e] ∧
      isTerminal e = true ∧ ∀ x ∈ pre, isTerminal x = false := by
  unfold transcribeHandler
  repeat' split
  all_goals first
  | exact ⟨[], _, rfl, rfl, by simp⟩
  | exact ⟨[.info "Fetching video info..."], _, rfl, rfl,
      by simp [isTerminal]⟩
  | exact ⟨[.info "Fetching video info...",
      .info "Downloading audio from YouTube..."], _, rfl, rfl,
      by simp [isTerminal]⟩
  | exact ⟨[.info "Fetching video info...",
      .info "Downloading audio from YouTube...",
      .info (backendMessage env.mode env.provider)], _, rfl, rfl,
      by simp [isTerminal]⟩
  | exact ⟨[.info "Fetching video info...",
      .info "Downloading audio from YouTube...",
      .info (backendMessage env.mode env.provider),
      .info "Finalizing..."], _, rfl, rfl,
      by simp [isTerminal]⟩

end Spoken
